import Mathlib

/-!
Shallow embedding of the Ockam transport-message wire codec, from
`implementations/rust/ockam/ockam_core/src/routing/message/transport_message.rs`.

Bytes are modelled as natural numbers (every byte written by the encoders is
below 256), byte buffers as `List Nat` consumed from the front (the Rust code
walks a slice with a cursor index; reading at the cursor and advancing it
corresponds to splitting off a prefix and returning the remaining suffix), and
Rust strings by their UTF-8 byte sequences.  Fallible Rust functions returning
`Option`/`Result` become `Option`/`Except`.

The `bare` primitive codec, `Address` and `Route` live in parts of the
repository that are not among the provided sources; they are modelled from the
spec's wire grammar (section 6):

  route       ::= count:bare-uint  address*
  address     ::= type_tag:u8  value:bare-bytes
  bare-uint   ::= variable-length unsigned integer (continuation-bit encoding)
  bare-bytes  ::= bare-uint(length)  byte-sequence of that length
  bare-string ::= bare-bytes, UTF-8 validated on decode
-/

namespace Ockam

/-- Modelled from the spec: BARE-style variable-length unsigned integer
encoder (`bare-uint`), continuation-bit encoding; values up to 0x7f take a
single byte, larger values store seven bits per byte with the high bit set on
every byte except the last.  The `bare` module is not among the provided
sources. -/
def uintEncode (n : Nat) : List Nat :=
  if n < 128 then [n] else (n % 128 + 128) :: uintEncode (n / 128)
decreasing_by exact Nat.div_lt_self (by omega) (by omega)

/-- Modelled from the spec: BARE-style variable-length unsigned integer
decoder; returns the value and the unconsumed tail, or `none` on truncation. -/
def uintDecode : List Nat → Option (Nat × List Nat)
  | [] => none
  | b :: rest =>
    if b < 128 then
      some (b, rest)
    else
      match uintDecode rest with
      | some (n, rest1) => some (b % 128 + 128 * n, rest1)
      | none => none

/-- Modelled from the spec: `bare::write_slice` appends a length prefix
(`bare-uint`) followed by the raw bytes. -/
def write_slice (payload : List Nat) : List Nat :=
  uintEncode payload.length ++ payload

/-- Modelled from the spec: `bare::read_slice` reads and validates a length
prefix and returns that many bytes plus the unconsumed tail; the length is
checked against the remaining buffer before anything is materialised, and
truncation yields `none` rather than an error. -/
def read_slice (s : List Nat) : Option (List Nat × List Nat) :=
  match uintDecode s with
  | some (len, rest) =>
    if len ≤ rest.length then some (rest.take len, rest.drop len) else none
  | none => none

/-- Helper for UTF-8 validation: a continuation byte is in 0x80..=0xBF. -/
def isCont (b : Nat) : Bool :=
  decide (128 ≤ b ∧ b ≤ 191)

/-- Modelled from the spec: UTF-8 validity of a byte sequence (RFC 3629
table), used by `bare::read_str`'s "UTF-8 validated on decode". -/
def isValidUtf8 : List Nat → Bool
  | [] => true
  | b :: rest =>
    if b ≤ 0x7F then
      isValidUtf8 rest
    else if 0xC2 ≤ b ∧ b ≤ 0xDF then
      match rest with
      | c1 :: r => isCont c1 && isValidUtf8 r
      | _ => false
    else if b = 0xE0 then
      match rest with
      | c1 :: c2 :: r => decide (0xA0 ≤ c1 ∧ c1 ≤ 0xBF) && isCont c2 && isValidUtf8 r
      | _ => false
    else if (0xE1 ≤ b ∧ b ≤ 0xEC) ∨ (0xEE ≤ b ∧ b ≤ 0xEF) then
      match rest with
      | c1 :: c2 :: r => isCont c1 && isCont c2 && isValidUtf8 r
      | _ => false
    else if b = 0xED then
      match rest with
      | c1 :: c2 :: r => decide (0x80 ≤ c1 ∧ c1 ≤ 0x9F) && isCont c2 && isValidUtf8 r
      | _ => false
    else if b = 0xF0 then
      match rest with
      | c1 :: c2 :: c3 :: r =>
        decide (0x90 ≤ c1 ∧ c1 ≤ 0xBF) && isCont c2 && isCont c3 && isValidUtf8 r
      | _ => false
    else if 0xF1 ≤ b ∧ b ≤ 0xF3 then
      match rest with
      | c1 :: c2 :: c3 :: r => isCont c1 && isCont c2 && isCont c3 && isValidUtf8 r
      | _ => false
    else if b = 0xF4 then
      match rest with
      | c1 :: c2 :: c3 :: r =>
        decide (0x80 ≤ c1 ∧ c1 ≤ 0x8F) && isCont c2 && isCont c3 && isValidUtf8 r
      | _ => false
    else
      false

/-- Modelled from the spec: `bare::write_str` writes a string (here: its UTF-8
bytes) as a length-prefixed byte sequence. -/
def write_str (s : List Nat) : List Nat :=
  write_slice s

/-- Modelled from the spec: `bare::read_str` reads a length-prefixed byte
sequence and validates it as UTF-8; invalid UTF-8 yields `none` rather than a
silently repaired value. -/
def read_str (buf : List Nat) : Option (List Nat × List Nat) :=
  match read_slice buf with
  | some (bs, rest) => if isValidUtf8 bs then some (bs, rest) else none
  | none => none

/-- Modelled from the spec: an `Address` is a routing-type tag (one byte) plus
an opaque byte value.  The `Address` type is not among the provided sources. -/
structure Address where
  type_tag : Nat
  value : List Nat
deriving Repr, DecidableEq

/-- Modelled from the spec: an address is wired as its tag byte followed by
its length-prefixed value. -/
def Address.manual_encode (a : Address) : List Nat :=
  a.type_tag :: write_slice a.value

/-- Modelled from the spec: decode one address (tag byte, then length-prefixed
value); `none` on truncation. -/
def Address.manual_decode (s : List Nat) : Option (Address × List Nat) :=
  match s with
  | [] => none
  | tag :: rest =>
    match read_slice rest with
    | some (v, rest1) => some (⟨tag, v⟩, rest1)
    | none => none

/-- Modelled from the spec: a `Route` is an ordered sequence of addresses. -/
abbrev Route := List Address

/-- Concatenated encodings of a list of addresses, in order. -/
def encodeAddresses : List Address → List Nat
  | [] => []
  | a :: rest => a.manual_encode ++ encodeAddresses rest

/-- Modelled from the spec: `Route::manual_encode` writes the element count as
a `bare-uint` followed by each address's encoding, in order. -/
def Route.manual_encode (r : Route) : List Nat :=
  uintEncode r.length ++ encodeAddresses r

/-- Decode exactly `n` consecutive addresses; `none` if the buffer is
exhausted early. -/
def decodeAddresses : Nat → List Nat → Option (List Address × List Nat)
  | 0, s => some ([], s)
  | n + 1, s =>
    match Address.manual_decode s with
    | some (a, rest) =>
      match decodeAddresses n rest with
      | some (l, rest1) => some (a :: l, rest1)
      | none => none
    | none => none

/-- Modelled from the spec: `Route::manual_decode` reads the count then that
many addresses, returning `none` if the buffer runs out before the count is
satisfied. -/
def Route.manual_decode (s : List Nat) : Option (Route × List Nat) :=
  match uintDecode s with
  | some (n, rest) => decodeAddresses n rest
  | none => none

/-- The generic transport message (build with the `tracing_context` feature
enabled): version byte, onward route, return route, payload, and an optional
tracing context carried as the UTF-8 bytes of its string form.  From
`transport_message.rs` lines 29-45. -/
structure TransportMessage where
  version : Nat
  onward_route : Route
  return_route : Route
  payload : List Nat
  tracing_context : Option (List Nat)
deriving Repr, DecidableEq

/-- The transport message of a build without the `tracing_context` feature:
the same struct with the optional field compiled out.  Its encoder is the
tracing-unaware encoder of the compatibility claims. -/
structure TransportMessageNoTracing where
  version : Nat
  onward_route : Route
  return_route : Route
  payload : List Nat
deriving Repr, DecidableEq

/-- `TransportMessage::v1`: a version-1 message with the given routes and
payload and no tracing context (lines 49-62). -/
def TransportMessage.v1 (onward_route return_route : Route) (payload : List Nat) :
    TransportMessage :=
  { version := 1, onward_route, return_route, payload, tracing_context := none }

/-- The version byte followed by both routes and the length-prefixed payload:
the mandatory part of the encoding, shared by both builds. -/
def TransportMessage.mandatoryEncode (m : TransportMessage) : List Nat :=
  m.version ::
    (Route.manual_encode m.onward_route ++ Route.manual_encode m.return_route ++
      write_slice m.payload)

/-- The trailing bytes written after the payload by the tracing-aware encoder
(the `cfg_if` block of lines 152-162): flag byte 1 followed by the
length-prefixed context string when the tracing context is present, flag
byte 0 when it is absent.  Note: in the source the present-branch reads
`vec.push(1)` although no `vec` is in scope (the output buffer is named
`encoded`); the model follows the evident intent of pushing the flag onto the
output buffer. -/
def TransportMessage.tracingSuffix (m : TransportMessage) : List Nat :=
  match m.tracing_context with
  | some tc => 1 :: write_str tc
  | none => [0]

/-- `Encodable::encode` for `TransportMessage` (lines 128-165), with the
tracing feature enabled: version byte, onward route, return route,
length-prefixed payload, then the presence byte and optional tracing
context. -/
def TransportMessage.encode (m : TransportMessage) : List Nat :=
  m.version ::
    (Route.manual_encode m.onward_route ++ Route.manual_encode m.return_route ++
      write_slice m.payload ++ m.tracingSuffix)

/-- `Encodable::encode` in a build without the tracing feature (the
`cfg` else-branch of lines 130-162): no trailing presence byte at all. -/
def TransportMessageNoTracing.encode (m : TransportMessageNoTracing) : List Nat :=
  m.version ::
    (Route.manual_encode m.onward_route ++ Route.manual_encode m.return_route ++
      write_slice m.payload)

/-- The mandatory part of `TransportMessage::internal_decode` (lines 181-187):
version byte, onward route, return route, length-prefixed payload; any failure
aborts the whole decode.  Returns the four fields plus the unconsumed tail. -/
def TransportMessage.parseMandatory (slice : List Nat) :
    Option (Nat × Route × Route × List Nat × List Nat) :=
  match slice with
  | [] => none
  | version :: s1 =>
    match Route.manual_decode s1 with
    | some (onward_route, s2) =>
      match Route.manual_decode s2 with
      | some (return_route, s3) =>
        match read_slice s3 with
        | some (payload, s4) => some (version, onward_route, return_route, payload, s4)
        | none => none
      | none => none
    | none => none

/-- `TransportMessage::internal_decode` (lines 180-217), tracing feature
enabled: after the mandatory fields, the next byte (0 if the buffer is
exhausted, per `.unwrap_or(0)`) is the presence flag; on flag 1 a
length-prefixed string is read, and a failed read is mapped to `none` rather
than propagated; any other flag value means no tracing context. -/
def TransportMessage.internal_decode (slice : List Nat) : Option TransportMessage :=
  match parseMandatory slice with
  | some (version, onward_route, return_route, payload, s4) =>
    let present := s4.headD 0
    let tracing_context :=
      if present = 1 then (read_str s4.tail).map Prod.fst else none
    some { version, onward_route, return_route, payload, tracing_context }
  | none => none

/-- Error origins (`errcode::Origin`), restricted to the variant this module
uses. -/
inductive Origin where
  | Transport
deriving Repr, DecidableEq

/-- Error kinds (`errcode::Kind`), restricted to the variant this module
uses. -/
inductive Kind where
  | Protocol
deriving Repr, DecidableEq

/-- The observable content of `ockam_core::Error` as constructed in this
module: origin, kind, and message string. -/
structure OckamError where
  origin : Origin
  kind : Kind
  message : String
deriving Repr, DecidableEq

/-- `Decodable::decode` for `TransportMessage` (lines 167-177): a failed
`internal_decode` is turned into the single Protocol-kind error. -/
def TransportMessage.decode (slice : List Nat) : Except OckamError TransportMessage :=
  match internal_decode slice with
  | some m => Except.ok m
  | none =>
    Except.error ⟨Origin.Transport, Kind.Protocol, "Failed to decode TransportMessage"⟩

/-- The single error value a failed decode produces (lines 169-175). -/
def protocolFailure : Except OckamError TransportMessage :=
  Except.error ⟨Origin.Transport, Kind.Protocol, "Failed to decode TransportMessage"⟩

/-- Length of the encoded bytes that precede the payload length prefix:
the version byte plus both route encodings. -/
def TransportMessage.headerLength (m : TransportMessage) : Nat :=
  1 + (Route.manual_encode m.onward_route).length +
    (Route.manual_encode m.return_route).length

/-- Modelled from the spec: an opaque distributed-tracing correlation context
(the `OpenTelemetryContext` type is not among the provided sources); only its
identity matters here. -/
structure OpenTelemetryContext where
  context : List Nat
deriving Repr, DecidableEq

/-- `start_new_tracing_context` in a build without the tracing feature (the
`cfg` else-branch, line 97): the message is returned unchanged. -/
def TransportMessageNoTracing.start_new_tracing_context
    (m : TransportMessageNoTracing) (_tracingContext : OpenTelemetryContext) :
    TransportMessageNoTracing :=
  m

/-- `start_new_tracing_context` with the tracing feature enabled (lines
74-100): the OpenTelemetry tracer interaction that produces the fresh token
(lines 78-90) is abstracted as a function `newTracingContext` of the incoming
context; the result is the struct update `{ tracing_context: Some(..), ..self }`
of line 92-95. -/
def TransportMessage.start_new_tracing_context
    (newTracingContext : OpenTelemetryContext → List Nat)
    (m : TransportMessage) (tracingContext : OpenTelemetryContext) : TransportMessage :=
  { m with tracing_context := some (newTracingContext tracingContext) }

/-! ## Round-trip and extension lemmas for the primitive codec -/

/-- Decoding a `bare-uint` encoding returns the value, leaving trailing bytes
as the unconsumed tail. -/
theorem uintDecode_uintEncode (n : Nat) (rest : List Nat) :
    uintDecode (uintEncode n ++ rest) = some (n, rest) := by
  induction n using Nat.strong_induction_on with
  | _ n ih =>
    rw [uintEncode]
    by_cases h : n < 128
    · simp [h, uintDecode]
    · rw [if_neg h, List.cons_append]
      have hge : ¬ (n % 128 + 128 < 128) := by omega
      have hdiv : n / 128 < n := Nat.div_lt_self (by omega) (by omega)
      simp only [uintDecode, if_neg hge, ih (n / 128) hdiv]
      have hmod : (n % 128 + 128) % 128 + 128 * (n / 128) = n := by omega
      rw [hmod]

/-- A successful `bare-uint` parse is stable under appending bytes: the same
value is returned and the appended bytes land in the tail. -/
theorem uintDecode_extend {s : List Nat} {n : Nat} {r : List Nat} (ext : List Nat)
    (h : uintDecode s = some (n, r)) :
    uintDecode (s ++ ext) = some (n, r ++ ext) := by
  induction s generalizing n r with
  | nil => simp [uintDecode] at h
  | cons b t ih =>
    simp only [uintDecode, List.cons_append] at h ⊢
    by_cases hb : b < 128
    · rw [if_pos hb] at h ⊢
      simp only [Option.some.injEq, Prod.mk.injEq] at h
      obtain ⟨rfl, rfl⟩ := h
      rfl
    · rw [if_neg hb] at h ⊢
      cases ht : uintDecode t with
      | none => simp [ht] at h
      | some p =>
        obtain ⟨m, r1⟩ := p
        simp only [ht, Option.some.injEq, Prod.mk.injEq] at h
        simp only [List.append_eq, ih ht]
        obtain ⟨rfl, rfl⟩ := h
        rfl

/-- Reading back a written slice returns the payload bytes, leaving trailing
bytes as the unconsumed tail. -/
theorem read_slice_write_slice (p rest : List Nat) :
    read_slice (write_slice p ++ rest) = some (p, rest) := by
  simp only [write_slice, read_slice, List.append_assoc, uintDecode_uintEncode]
  rw [if_pos (by simp)]
  rw [List.take_left, List.drop_left]

/-- A successful slice parse is stable under appending bytes. -/
theorem read_slice_extend {s bs r : List Nat} (ext : List Nat)
    (h : read_slice s = some (bs, r)) :
    read_slice (s ++ ext) = some (bs, r ++ ext) := by
  simp only [read_slice] at h ⊢
  cases hu : uintDecode s with
  | none => simp [hu] at h
  | some p =>
    obtain ⟨len, rest⟩ := p
    simp only [hu] at h
    simp only [uintDecode_extend ext hu]
    by_cases hl : len ≤ rest.length
    · rw [if_pos hl] at h
      simp only [Option.some.injEq, Prod.mk.injEq] at h
      rw [if_pos (le_trans hl (by simp))]
      rw [List.take_append_of_le_length hl, List.drop_append_of_le_length hl]
      rw [h.1, h.2]
    · rw [if_neg hl] at h
      simp at h

/-- Decoding an encoded address returns the address, leaving trailing bytes as
the unconsumed tail. -/
theorem address_decode_encode (a : Address) (rest : List Nat) :
    Address.manual_decode (a.manual_encode ++ rest) = some (a, rest) := by
  simp only [Address.manual_encode, Address.manual_decode, List.cons_append,
    read_slice_write_slice]

/-- A successful address parse is stable under appending bytes. -/
theorem address_decode_extend {s : List Nat} {a : Address} {r : List Nat} (ext : List Nat)
    (h : Address.manual_decode s = some (a, r)) :
    Address.manual_decode (s ++ ext) = some (a, r ++ ext) := by
  cases s with
  | nil => simp [Address.manual_decode] at h
  | cons tag rest =>
    simp only [Address.manual_decode, List.cons_append] at h ⊢
    cases hr : read_slice rest with
    | none => simp [hr] at h
    | some p =>
      obtain ⟨v, r1⟩ := p
      simp only [hr, Option.some.injEq, Prod.mk.injEq] at h
      simp only [read_slice_extend ext hr]
      obtain ⟨rfl, rfl⟩ := h
      rfl

/-- Decoding the concatenated encodings of `l.length` addresses returns
exactly `l`, leaving trailing bytes as the unconsumed tail. -/
theorem decodeAddresses_encodeAddresses (l : List Address) (rest : List Nat) :
    decodeAddresses l.length (encodeAddresses l ++ rest) = some (l, rest) := by
  induction l generalizing rest with
  | nil => simp [encodeAddresses, decodeAddresses]
  | cons a t ih =>
    simp only [List.length_cons, encodeAddresses, decodeAddresses, List.append_assoc,
      address_decode_encode, ih]

/-- A successful fixed-count address-list parse is stable under appending
bytes. -/
theorem decodeAddresses_extend {n : Nat} {s : List Nat} {l : List Address} {r : List Nat}
    (ext : List Nat) (h : decodeAddresses n s = some (l, r)) :
    decodeAddresses n (s ++ ext) = some (l, r ++ ext) := by
  induction n generalizing s l r with
  | zero =>
    simp only [decodeAddresses, Option.some.injEq, Prod.mk.injEq] at h ⊢
    exact ⟨h.1, by rw [h.2]⟩
  | succ m ih =>
    simp only [decodeAddresses] at h ⊢
    cases ha : Address.manual_decode s with
    | none => simp [ha] at h
    | some p =>
      obtain ⟨a, rest⟩ := p
      cases hd : decodeAddresses m rest with
      | none => simp [ha, hd] at h
      | some q =>
        obtain ⟨l1, r1⟩ := q
        simp only [ha, hd, Option.some.injEq, Prod.mk.injEq] at h
        simp only [address_decode_extend ext ha, ih hd]
        obtain ⟨rfl, rfl⟩ := h
        rfl

/-- Decoding an encoded route returns the route, leaving trailing bytes as the
unconsumed tail. -/
theorem route_decode_encode (r : Route) (rest : List Nat) :
    Route.manual_decode (Route.manual_encode r ++ rest) = some (r, rest) := by
  unfold Route.manual_encode Route.manual_decode
  rw [List.append_assoc, uintDecode_uintEncode]
  exact decodeAddresses_encodeAddresses r rest

/-- A successful route parse is stable under appending bytes. -/
theorem route_decode_extend {s : List Nat} {r : Route} {t : List Nat} (ext : List Nat)
    (h : Route.manual_decode s = some (r, t)) :
    Route.manual_decode (s ++ ext) = some (r, t ++ ext) := by
  unfold Route.manual_decode at h ⊢
  cases hu : uintDecode s with
  | none => rw [hu] at h; simp at h
  | some p =>
    obtain ⟨n, rest⟩ := p
    rw [hu] at h
    rw [uintDecode_extend ext hu]
    exact decodeAddresses_extend ext h

/-- Decoding a strict initial segment of a route encoding fails: the route
wire format is self-delimiting, so no truncation of it parses as a route. -/
theorem route_decode_take (r : Route) (j : Nat)
    (hj : j < (Route.manual_encode r).length) :
    Route.manual_decode ((Route.manual_encode r).take j) = none := by
  cases hd : Route.manual_decode ((Route.manual_encode r).take j) with
  | none => rfl
  | some p =>
    obtain ⟨x, rest⟩ := p
    exfalso
    have h1 := route_decode_extend ((Route.manual_encode r).drop j) hd
    rw [List.take_append_drop] at h1
    have h2 := route_decode_encode r []
    rw [List.append_nil] at h2
    rw [h1] at h2
    simp only [Option.some.injEq, Prod.mk.injEq] at h2
    have h3 := congrArg List.length h2.2
    rw [List.length_append, List.length_drop] at h3
    simp at h3
    omega

/-! ## Envelope-level helper lemmas -/

/-- Parsing the mandatory fields of a well-formed header returns them, leaving
everything after the payload as the unconsumed tail. -/
theorem parseMandatory_encode (v : Nat) (o r : Route) (p tail : List Nat) :
    TransportMessage.parseMandatory
        (v :: (Route.manual_encode o ++ (Route.manual_encode r ++ (write_slice p ++ tail)))) =
      some (v, o, r, p, tail) := by
  simp only [TransportMessage.parseMandatory, route_decode_encode, read_slice_write_slice]

/-- A failed mandatory parse makes the whole decode surface the single
Protocol-kind error. -/
theorem decode_error_of_parse_none {s : List Nat}
    (h : TransportMessage.parseMandatory s = none) :
    TransportMessage.decode s = protocolFailure := by
  simp [TransportMessage.decode, TransportMessage.internal_decode, h, protocolFailure]

/-- A successful mandatory parse reports the input's first byte as the
version. -/
theorem parseMandatory_head {s : List Nat} {v : Nat} {o r : Route} {p t : List Nat}
    (h : TransportMessage.parseMandatory s = some (v, o, r, p, t)) :
    s.head? = some v := by
  cases s with
  | nil => simp [TransportMessage.parseMandatory] at h
  | cons b s1 =>
    simp only [TransportMessage.parseMandatory] at h
    cases h2 : Route.manual_decode s1 with
    | none => simp [h2] at h
    | some p2 =>
      obtain ⟨o2, s2⟩ := p2
      cases h3 : Route.manual_decode s2 with
      | none => simp [h2, h3] at h
      | some p3 =>
        obtain ⟨r3, s3⟩ := p3
        cases h4 : read_slice s3 with
        | none => simp [h2, h3, h4] at h
        | some p4 =>
          obtain ⟨pl, s4⟩ := p4
          simp only [h2, h3, h4, Option.some.injEq, Prod.mk.injEq] at h
          simp [h.1]

/-- Parsing the mandatory fields fails on every strict truncation of the bytes
that follow the version byte up to the end of the second route encoding. -/
theorem parseMandatory_truncated (v : Nat) (o r : Route) (rest3 : List Nat) (j : Nat)
    (hj : j ≤ (Route.manual_encode o).length + (Route.manual_encode r).length) :
    TransportMessage.parseMandatory
        (v :: ((Route.manual_encode o ++ (Route.manual_encode r ++ rest3)).take j)) =
      none := by
  by_cases h1 : j < (Route.manual_encode o).length
  · rw [List.take_append_of_le_length (Nat.le_of_lt h1)]
    simp only [TransportMessage.parseMandatory, route_decode_take o j h1]
  · push_neg at h1
    rw [List.take_append_eq_append_take, List.take_of_length_le h1]
    by_cases h2 : j - (Route.manual_encode o).length < (Route.manual_encode r).length
    · rw [List.take_append_of_le_length (Nat.le_of_lt h2)]
      simp only [TransportMessage.parseMandatory, route_decode_encode,
        route_decode_take r _ h2]
    · push_neg at h2
      have hi : j - (Route.manual_encode o).length = (Route.manual_encode r).length := by
        omega
      rw [hi, List.take_left]
      have hr : Route.manual_decode (Route.manual_encode r) = some (r, []) := by
        have hx := route_decode_encode r []
        rwa [List.append_nil] at hx
      simp only [TransportMessage.parseMandatory, route_decode_encode, hr]
      rfl

/-! ## Claim theorems -/

/-- C1: for every pair of routes and every payload, decoding the bytes
produced by encoding `TransportMessage::v1(onward_route, return_route,
payload)` succeeds and yields a message equal to the original: version 1, the
same routes, the same payload, and no tracing token. -/
theorem v1_encode_decode_roundtrip (o r : Route) (p : List Nat) :
    TransportMessage.decode (TransportMessage.encode (TransportMessage.v1 o r p)) =
      Except.ok (TransportMessage.v1 o r p) := by
  have henc : TransportMessage.encode (TransportMessage.v1 o r p) =
      1 :: (Route.manual_encode o ++ (Route.manual_encode r ++ (write_slice p ++ [0]))) := by
    simp [TransportMessage.encode, TransportMessage.v1, TransportMessage.tracingSuffix,
      List.append_assoc]
  rw [henc]
  simp only [TransportMessage.decode, TransportMessage.internal_decode, parseMandatory_encode]
  rfl

/-- C2: an envelope whose byte encoding ends immediately after the
length-prefixed payload (a tracing-unaware encoder wrote no presence byte)
decodes successfully under the tracing-aware decoder, returning the encoded
version, onward route, return route and payload, with the tracing token
reported absent. -/
theorem untraced_encoding_decodes (m : TransportMessageNoTracing) :
    TransportMessage.decode m.encode =
      Except.ok ⟨m.version, m.onward_route, m.return_route, m.payload, none⟩ := by
  have henc : m.encode =
      m.version :: (Route.manual_encode m.onward_route ++
        (Route.manual_encode m.return_route ++ (write_slice m.payload ++ []))) := by
    simp [TransportMessageNoTracing.encode]
  rw [henc]
  simp only [TransportMessage.decode, TransportMessage.internal_decode, parseMandatory_encode]
  rfl

/-- C3: extending a valid tracing-unaware encoding with a flag byte other
than 1 followed by arbitrary bytes never makes decode fail: it still succeeds
and returns the mandatory fields correctly, with the tracing token reported
absent. -/
theorem unknown_flag_tolerated (m : TransportMessageNoTracing) (flag : Nat)
    (junk : List Nat) (hflag : flag ≠ 1) :
    TransportMessage.decode (m.encode ++ (flag :: junk)) =
      Except.ok ⟨m.version, m.onward_route, m.return_route, m.payload, none⟩ := by
  have henc : m.encode ++ (flag :: junk) =
      m.version :: (Route.manual_encode m.onward_route ++
        (Route.manual_encode m.return_route ++ (write_slice m.payload ++ (flag :: junk)))) := by
    simp [TransportMessageNoTracing.encode]
  rw [henc]
  simp only [TransportMessage.decode, TransportMessage.internal_decode, parseMandatory_encode]
  simp [hflag]

/-- Witness for C3 at a concrete input: flag byte 2 with trailing garbage. -/
theorem unknown_flag_tolerated_witness :
    (2 : Nat) ≠ 1 ∧
      TransportMessage.decode
          (TransportMessageNoTracing.encode ⟨1, [], [], [5]⟩ ++ (2 :: [9, 9])) =
        Except.ok ⟨1, [], [], [5], none⟩ :=
  ⟨by decide, unknown_flag_tolerated ⟨1, [], [], [5]⟩ 2 [9, 9] (by decide)⟩

/-- C4: truncating an otherwise-valid encoded envelope at any byte boundary
before the payload length prefix yields the decode failure, never a
partially-populated message (the embedding is a total function, so no panic is
possible either). -/
theorem truncated_header_decode_fails (m : TransportMessage) (k : Nat)
    (hk : k ≤ m.headerLength) :
    TransportMessage.decode ((TransportMessage.encode m).take k) = protocolFailure := by
  apply decode_error_of_parse_none
  cases k with
  | zero => rfl
  | succ j =>
    have henc : TransportMessage.encode m =
        m.version :: (Route.manual_encode m.onward_route ++
          (Route.manual_encode m.return_route ++
            (write_slice m.payload ++ m.tracingSuffix))) := by
      simp [TransportMessage.encode, List.append_assoc]
    rw [henc, List.take_succ_cons]
    apply parseMandatory_truncated
    simp only [TransportMessage.headerLength] at hk
    omega

/-- Witness for C4 at a concrete input: cutting the encoding of a one-byte
payload message after two header bytes. -/
theorem truncated_header_decode_fails_witness :
    (2 : Nat) ≤ (TransportMessage.mk 1 [] [] [5] none).headerLength ∧
      TransportMessage.decode ((TransportMessage.encode ⟨1, [], [], [5], none⟩).take 2) =
        protocolFailure :=
  ⟨by simp [TransportMessage.headerLength, Route.manual_encode, encodeAddresses, uintEncode],
    truncated_header_decode_fails ⟨1, [], [], [5], none⟩ 2
      (by simp [TransportMessage.headerLength, Route.manual_encode, encodeAddresses, uintEncode])⟩

/-- C5: whenever decoding a mandatory field (version byte, either route, or
the payload) fails, `decode` returns exactly the single Protocol-kind error
"Failed to decode TransportMessage", and the caller receives no partial
message. -/
theorem mandatory_failure_single_error (s : List Nat)
    (h : TransportMessage.parseMandatory s = none) :
    TransportMessage.decode s = protocolFailure :=
  decode_error_of_parse_none h

/-- Witness for C5 at a concrete input: the empty buffer has no version
byte. -/
theorem mandatory_failure_single_error_witness :
    TransportMessage.parseMandatory [] = none ∧
      TransportMessage.decode [] = protocolFailure :=
  ⟨rfl, mandatory_failure_single_error [] rfl⟩

/-- C6 (as the source evidently intends, see `TransportMessage.tracingSuffix`):
when the tracing token is present, `encode` emits the fixed field order:
version byte, onward route, return route, length-prefixed payload, then
presence byte 1 followed by the length-prefixed token. -/
theorem encode_layout_with_token (m : TransportMessage) (tc : List Nat)
    (h : m.tracing_context = some tc) :
    TransportMessage.encode m =
      TransportMessage.mandatoryEncode m ++ (1 :: write_str tc) := by
  simp [TransportMessage.encode, TransportMessage.mandatoryEncode,
    TransportMessage.tracingSuffix, h, List.append_assoc]

/-- Witness for C6 at a concrete input: a message carrying the one-byte
token 0x74. -/
theorem encode_layout_with_token_witness :
    (TransportMessage.mk 1 [] [] [5] (some [116])).tracing_context = some [116] ∧
      TransportMessage.encode ⟨1, [], [], [5], some [116]⟩ =
        TransportMessage.mandatoryEncode ⟨1, [], [], [5], some [116]⟩ ++ (1 :: write_str [116]) :=
  ⟨rfl, encode_layout_with_token ⟨1, [], [], [5], some [116]⟩ [116] rfl⟩

/-- C7 counterexample: the claim says a presence flag of 1 followed by bytes
that are not a valid length-prefixed string is a decode failure, but on the
concrete input `[1,0,0,0,1]` (empty routes and payload, flag 1, token
truncated away) decode succeeds, reporting the token absent. -/
theorem flag_one_invalid_token_decodes : TransportMessage.decode [1, 0, 0, 0, 1] =
    Except.ok ⟨1, [], [], [], none⟩ := rfl

/-- C7 amended: when the presence flag is 1 but the bytes that follow are not
a valid length-prefixed UTF-8 string, decode still succeeds with the mandatory
fields intact and the tracing token reported absent — the invalid token is
dropped, not repaired into a substituted value. -/
theorem flag_one_invalid_token_absent (m : TransportMessageNoTracing)
    (junk : List Nat) (h : read_str junk = none) :
    TransportMessage.decode (m.encode ++ (1 :: junk)) =
      Except.ok ⟨m.version, m.onward_route, m.return_route, m.payload, none⟩ := by
  have henc : m.encode ++ (1 :: junk) =
      m.version :: (Route.manual_encode m.onward_route ++
        (Route.manual_encode m.return_route ++ (write_slice m.payload ++ (1 :: junk)))) := by
    simp [TransportMessageNoTracing.encode]
  rw [henc]
  simp only [TransportMessage.decode, TransportMessage.internal_decode, parseMandatory_encode]
  simp [h]

/-- Witness for the amended C7 at a concrete input: flag 1 with nothing after
it. -/
theorem flag_one_invalid_token_absent_witness :
    read_str ([] : List Nat) = none ∧
      TransportMessage.decode (TransportMessageNoTracing.encode ⟨1, [], [], []⟩ ++ (1 :: [])) =
        Except.ok ⟨1, [], [], [], none⟩ :=
  ⟨rfl, flag_one_invalid_token_absent ⟨1, [], [], []⟩ [] rfl⟩

/-- C8 counterexample: the claim says every successfully decoded message has
version at least 1, but the concrete input `[0,0,0,0]` decodes successfully to
a message whose version is 0. -/
theorem version_zero_decodes :
    TransportMessage.decode [0, 0, 0, 0] = Except.ok ⟨0, [], [], [], none⟩ ∧
      (TransportMessage.mk 0 [] [] [] none).version < 1 :=
  ⟨rfl, by decide⟩

/-- C8 amended: a successful decode returns the first input byte, whatever it
is, as the version — the decoder performs no lower-bound check on it. -/
theorem decoded_version_is_first_byte (s : List Nat) (m : TransportMessage)
    (h : TransportMessage.internal_decode s = some m) :
    s.head? = some m.version := by
  simp only [TransportMessage.internal_decode] at h
  cases hp : TransportMessage.parseMandatory s with
  | none => simp [hp] at h
  | some q =>
    obtain ⟨ver, o, r, p, s4⟩ := q
    simp only [hp, Option.some.injEq] at h
    subst h
    rw [parseMandatory_head hp]

/-- Witness for the amended C8 at a concrete input with first byte 7. -/
theorem decoded_version_is_first_byte_witness :
    TransportMessage.internal_decode [7, 0, 0, 0] = some ⟨7, [], [], [], none⟩ ∧
      ([7, 0, 0, 0] : List Nat).head? = some (TransportMessage.mk 7 [] [] [] none).version :=
  ⟨rfl, decoded_version_is_first_byte [7, 0, 0, 0] ⟨7, [], [], [], none⟩ rfl⟩

/-- C9: in a build without the tracing feature, `start_new_tracing_context`
is the identity: it returns the message unchanged for every incoming tracing
context. -/
theorem start_new_tracing_context_identity (m : TransportMessageNoTracing)
    (ctx : OpenTelemetryContext) :
    m.start_new_tracing_context ctx = m := rfl

/-- C10: `start_new_tracing_context` (tracing feature enabled, for every way
the tracer produces the fresh token) preserves the version, onward route,
return route and payload of its input; only the tracing context changes. -/
theorem start_new_tracing_context_frame (gen : OpenTelemetryContext → List Nat)
    (m : TransportMessage) (ctx : OpenTelemetryContext) :
    (TransportMessage.start_new_tracing_context gen m ctx).version = m.version ∧
      (TransportMessage.start_new_tracing_context gen m ctx).onward_route = m.onward_route ∧
      (TransportMessage.start_new_tracing_context gen m ctx).return_route = m.return_route ∧
      (TransportMessage.start_new_tracing_context gen m ctx).payload = m.payload :=
  ⟨rfl, rfl, rfl, rfl⟩

end Ockam
